import Mathlib

/-!
Shallow embedding of the Arrow Routing & Layout Engine of the
Extended-Flashcards repository.

The engine lives in the `CanvasUtils` class of `src/utils/canvasUtils.ts`:
`determineEdgeFromVector` (edge selector), `getSideEdgeConnectionPoint` /
`getArrowEdgePoint` (connection-point allocator), and
`calculateArrowPathWithTravel` / `calculateAdvancedArrowPath` (path builder
and entry point).  Label placement is read from `drawArrow` in
`src/components/Canvas/FlashcardCanvas.tsx`.

Modelling conventions:
* JavaScript `number` is modelled as `ℝ`; `Math.sqrt` is `Real.sqrt`.
* The `Infinity` sentinel used by `determineEdgeFromVector` is modelled as
  `Option ℝ` with `none` standing for `Infinity`.
* `Array.prototype.sort` with a numeric comparator is modelled as a stable
  insertion sort (`jsSort`): an element is placed after every element it
  compares positively against, which matches the ECMAScript requirement of
  a stable, comparator-consistent sort.
* `Array.prototype.findIndex` is modelled as `jsFindIndex : … → ℤ`, giving
  `-1` when no element matches.
* The optional `width`/`height` fields default through `|| 100` and
  `|| 60`; the JavaScript falsy check is modelled by treating `0` (and a
  missing field) as falsy.
-/

structure Position where
  x : ℝ
  y : ℝ

structure FlashcardSide where
  id : String
  position : Position
  width : Option ℝ
  height : Option ℝ

structure Arrow where
  id : String
  sourceId : String
  destinationId : String

inductive Edge where
  | top
  | bottom
  | left
  | right
deriving DecidableEq

/-- Effective width of a side: `side.width || 100` from the source. -/
noncomputable def FlashcardSide.effWidth (side : FlashcardSide) : ℝ :=
  match side.width with
  | some v => if v = 0 then 100 else v
  | none => 100

/-- Effective height of a side: `side.height || 60` from the source. -/
noncomputable def FlashcardSide.effHeight (side : FlashcardSide) : ℝ :=
  match side.height with
  | some v => if v = 0 then 60 else v
  | none => 60

namespace CanvasUtils

/-- `CanvasUtils.getSideCenter`. -/
noncomputable def getSideCenter (side : FlashcardSide) : Position :=
  { x := side.position.x + side.effWidth / 2
    y := side.position.y + side.effHeight / 2 }

/-- Strict comparison on `Option ℝ` where `none` plays the role of the
`Infinity` sentinel of `determineEdgeFromVector`. -/
noncomputable def ltInf (d m : Option ℝ) : Bool :=
  match d, m with
  | none, _ => false
  | some _, none => true
  | some d, some m => decide (d < m)

/-- The `Object.values(edges).forEach` minimum search of
`determineEdgeFromVector`: starts from `closestEdge = 'right'`,
`minDistance = Infinity`, visits candidates in insertion order and keeps
the strictly smaller distance. -/
noncomputable def pickClosest (cands : List (Option ℝ × Edge)) : Edge :=
  (cands.foldl (fun acc c => if ltInf c.1 acc.2 then (c.2, c.1) else acc)
    (Edge.right, (none : Option ℝ))).1

/-- `CanvasUtils.determineEdgeFromVector`: which edge of `fromSide` the
center-to-center ray toward `toSide` exits through. -/
noncomputable def determineEdgeFromVector (fromSide toSide : FlashcardSide) : Edge :=
  let fromCenter := getSideCenter fromSide
  let toCenter := getSideCenter toSide
  let fromWidth := fromSide.effWidth
  let fromHeight := fromSide.effHeight
  let dx := toCenter.x - fromCenter.x
  let dy := toCenter.y - fromCenter.y
  let rightD : Option ℝ :=
    if 0 < dx then
      let t := (fromWidth / 2) / dx
      let intersectY := fromCenter.y + dy * t
      if fromSide.position.y ≤ intersectY ∧
          intersectY ≤ fromSide.position.y + fromHeight then
        some (Real.sqrt ((fromWidth / 2) ^ 2 + (dy * t) ^ 2))
      else none
    else none
  let leftD : Option ℝ :=
    if dx < 0 then
      let t := (-(fromWidth / 2)) / dx
      let intersectY := fromCenter.y + dy * t
      if fromSide.position.y ≤ intersectY ∧
          intersectY ≤ fromSide.position.y + fromHeight then
        some (Real.sqrt ((fromWidth / 2) ^ 2 + (dy * t) ^ 2))
      else none
    else none
  let bottomD : Option ℝ :=
    if 0 < dy then
      let t := (fromHeight / 2) / dy
      let intersectX := fromCenter.x + dx * t
      if fromSide.position.x ≤ intersectX ∧
          intersectX ≤ fromSide.position.x + fromWidth then
        some (Real.sqrt ((dx * t) ^ 2 + (fromHeight / 2) ^ 2))
      else none
    else none
  let topD : Option ℝ :=
    if dy < 0 then
      let t := (-(fromHeight / 2)) / dy
      let intersectX := fromCenter.x + dx * t
      if fromSide.position.x ≤ intersectX ∧
          intersectX ≤ fromSide.position.x + fromWidth then
        some (Real.sqrt ((dx * t) ^ 2 + (fromHeight / 2) ^ 2))
      else none
    else none
  pickClosest [(rightD, Edge.right), (leftD, Edge.left),
    (bottomD, Edge.bottom), (topD, Edge.top)]

/-- The side an arrow connects to that is not `side`: the
`a.sourceId === side.id ? find(destination) : find(source)` lookup of the
allocator comparator. -/
noncomputable def otherSideOf (side : FlashcardSide) (sides : List FlashcardSide)
    (a : Arrow) : Option FlashcardSide :=
  if a.sourceId == side.id then sides.find? (fun s => s.id == a.destinationId)
  else sides.find? (fun s => s.id == a.sourceId)

/-- The numeric sort comparator of `getSideEdgeConnectionPoint`. -/
noncomputable def compareOnEdge (side : FlashcardSide) (edge : Edge)
    (sides : List FlashcardSide) (a b : Arrow) : ℝ :=
  match otherSideOf side sides a, otherSideOf side sides b with
  | some aOther, some bOther =>
      let aCenter := getSideCenter aOther
      let bCenter := getSideCenter bOther
      if edge = Edge.top ∨ edge = Edge.bottom then
        let xDiff := bCenter.x - aCenter.x
        if 5 < |xDiff| then xDiff else |aCenter.y| - |bCenter.y|
      else
        let yDiff := bCenter.y - aCenter.y
        if 5 < |yDiff| then yDiff else |aCenter.x| - |bCenter.x|
  | _, _ => 0

/-- Stable insertion of one element under a JavaScript numeric comparator:
`x` moves past every `y` with `cmp x y > 0` and stops otherwise. -/
noncomputable def jsInsert {α : Type} (cmp : α → α → ℝ) (x : α) : List α → List α
  | [] => [x]
  | y :: ys => if 0 < cmp x y then y :: jsInsert cmp x ys else x :: y :: ys

/-- Model of `Array.prototype.sort(cmp)`: a stable sort respecting the
numeric comparator. -/
noncomputable def jsSort {α : Type} (cmp : α → α → ℝ) : List α → List α
  | [] => []
  | x :: xs => jsInsert cmp x (jsSort cmp xs)

/-- The filter of `getSideEdgeConnectionPoint`: does this arrow touch the
given edge of the given side, either outbound or inbound? -/
noncomputable def arrowOnEdge (side : FlashcardSide) (edge : Edge)
    (sides : List FlashcardSide) (arrow : Arrow) : Bool :=
  match sides.find? (fun s => s.id == arrow.sourceId),
      sides.find? (fun s => s.id == arrow.destinationId) with
  | some sourceSide, some destSide =>
      if sourceSide.id == side.id then
        decide (determineEdgeFromVector sourceSide destSide = edge)
      else if destSide.id == side.id then
        decide (determineEdgeFromVector destSide sourceSide = edge)
      else false
  | _, _ => false

/-- The `edgeArrows` list of `getSideEdgeConnectionPoint`. -/
noncomputable def edgeArrowsOf (side : FlashcardSide) (edge : Edge)
    (allArrows : List Arrow) (sides : List FlashcardSide) : List Arrow :=
  allArrows.filter (arrowOnEdge side edge sides)

/-- The `sortedEdgeArrows` list of `getSideEdgeConnectionPoint`. -/
noncomputable def sortedEdgeArrowsOf (side : FlashcardSide) (edge : Edge)
    (allArrows : List Arrow) (sides : List FlashcardSide) : List Arrow :=
  jsSort (compareOnEdge side edge sides) (edgeArrowsOf side edge allArrows sides)

/-- Model of `Array.prototype.findIndex`: index of the first match, `-1`
when there is none. -/
noncomputable def jsFindIndex {α : Type} (p : α → Bool) (l : List α) : ℤ :=
  if l.findIdx p < l.length then (l.findIdx p : ℤ) else -1

/-- `CanvasUtils.getArrowEdgePoint`: maps a sorted index to a position in
the middle 80% of the edge; bottom and right edges run in reverse. -/
noncomputable def getArrowEdgePoint (side : FlashcardSide) (edge : Edge)
    (arrowIndex totalArrows : ℝ) : Position :=
  let width := side.effWidth
  let height := side.effHeight
  let distribution := if 1 < totalArrows then arrowIndex / (totalArrows - 1) else 0.5
  let adjustedDistribution := 0.1 + distribution * 0.8
  match edge with
  | Edge.top =>
      { x := side.position.x + width * adjustedDistribution
        y := side.position.y }
  | Edge.bottom =>
      { x := side.position.x + width * (1 - adjustedDistribution)
        y := side.position.y + height }
  | Edge.left =>
      { x := side.position.x
        y := side.position.y + height * adjustedDistribution }
  | Edge.right =>
      { x := side.position.x + width
        y := side.position.y + height * (1 - adjustedDistribution) }

/-- `CanvasUtils.getSideEdgeConnectionPoint`: the allocator. -/
noncomputable def getSideEdgeConnectionPoint (side : FlashcardSide) (edge : Edge)
    (currentArrow : Arrow) (allArrows : List Arrow)
    (sides : List FlashcardSide) : Position :=
  let sorted := sortedEdgeArrowsOf side edge allArrows sides
  let arrowIndex := jsFindIndex (fun a => a.id == currentArrow.id) sorted
  getArrowEdgePoint side edge (arrowIndex : ℝ) (sorted.length : ℝ)

/-- `CanvasUtils.calculateArrowPathWithTravel`: the path builder.  The
`destEdge`, `sourceSide` and `destSide` parameters are kept from the
source signature although the body does not use them. -/
noncomputable def calculateArrowPathWithTravel (sourcePoint destPoint : Position)
    (sourceEdge destEdge : Edge) (sourceSide destSide : FlashcardSide) :
    List Position :=
  let dx := destPoint.x - sourcePoint.x
  let dy := destPoint.y - sourcePoint.y
  let distance := Real.sqrt (dx * dx + dy * dy)
  let minTravel := max (distance * 0.2) 40
  if sourceEdge = Edge.left ∨ sourceEdge = Edge.right then
    let travelX := if sourceEdge = Edge.right then minTravel else -minTravel
    let firstCorner : Position := { x := sourcePoint.x + travelX, y := sourcePoint.y }
    let secondCorner : Position := { x := firstCorner.x, y := destPoint.y }
    [sourcePoint, firstCorner, secondCorner, destPoint]
  else
    let travelY := if sourceEdge = Edge.bottom then minTravel else -minTravel
    let firstCorner : Position := { x := sourcePoint.x, y := sourcePoint.y + travelY }
    let secondCorner : Position := { x := destPoint.x, y := firstCorner.y }
    [sourcePoint, firstCorner, secondCorner, destPoint]

/-- `CanvasUtils.calculateAdvancedArrowPath`: the engine entry point. -/
noncomputable def calculateAdvancedArrowPath (arrow : Arrow) (allArrows : List Arrow)
    (sides : List FlashcardSide) : List Position :=
  match sides.find? (fun s => s.id == arrow.sourceId),
      sides.find? (fun s => s.id == arrow.destinationId) with
  | some sourceSide, some destSide =>
      let sourceEdge := determineEdgeFromVector sourceSide destSide
      let destEdge := determineEdgeFromVector destSide sourceSide
      let sourcePoint := getSideEdgeConnectionPoint sourceSide sourceEdge arrow allArrows sides
      let destPoint := getSideEdgeConnectionPoint destSide destEdge arrow allArrows sides
      calculateArrowPathWithTravel sourcePoint destPoint sourceEdge destEdge sourceSide destSide
  | _, _ => []

/-- `CanvasUtils.isPointInSide`. -/
noncomputable def isPointInSide (point : Position) (side : FlashcardSide) : Bool :=
  decide (side.position.x ≤ point.x ∧ point.x ≤ side.position.x + side.effWidth ∧
    side.position.y ≤ point.y ∧ point.y ≤ side.position.y + side.effHeight)

end CanvasUtils

/-- Label placement of `drawArrow` in `FlashcardCanvas.tsx`: the function
returns early for paths with fewer than two points, otherwise the label is
drawn at `path[Math.floor(path.length / 2)]`. -/
noncomputable def drawArrowLabelPosition (path : List Position) : Option Position :=
  if path.length < 2 then none
  else path.get? (path.length / 2)

/-- Euclidean length of one path segment. -/
noncomputable def segmentLength (p q : Position) : ℝ :=
  Real.sqrt ((q.x - p.x) * (q.x - p.x) + (q.y - p.y) * (q.y - p.y))

/-- Length of the first segment of a path (0 for degenerate paths). -/
noncomputable def firstSegmentLength : List Position → ℝ
  | p :: q :: _ => segmentLength p q
  | _ => 0

/-- Total arc length of a path. -/
noncomputable def pathLength : List Position → ℝ
  | p :: q :: rest => segmentLength p q + pathLength (q :: rest)
  | _ => 0

/-- Arc length from the start of the path to its `k`-th vertex. -/
noncomputable def lengthUpTo : List Position → ℕ → ℝ
  | _, 0 => 0
  | p :: q :: rest, Nat.succ k => segmentLength p q + lengthUpTo (q :: rest) k
  | _, _ => 0

/-- Arc-length fraction of the `k`-th vertex of a path. -/
noncomputable def arcFractionAt (path : List Position) (k : ℕ) : ℝ :=
  lengthUpTo path k / pathLength path

/-- Point of the segment `p q` at parameter `t ∈ [0, 1]`. -/
noncomputable def lerp (p q : Position) (t : ℝ) : Position :=
  { x := p.x + t * (q.x - p.x), y := p.y + t * (q.y - p.y) }

/-- The closed segment from `p` to `q` meets the rectangle of `side`
(rectangle membership as in `CanvasUtils.isPointInSide`). -/
def segmentMeetsSide (p q : Position) (side : FlashcardSide) : Prop :=
  ∃ t : ℝ, 0 ≤ t ∧ t ≤ 1 ∧ CanvasUtils.isPointInSide (lerp p q t) side = true

/-- The segment from `p` to `q` is horizontal. -/
def horizSeg (p q : Position) : Prop := p.y = q.y

/-- The segment from `p` to `q` is vertical. -/
def vertSeg (p q : Position) : Prop := p.x = q.x

/-- The point lies on the given edge of the side, within the band between
10% and 90% of the edge's length. -/
noncomputable def onEdgeBand (side : FlashcardSide) (edge : Edge) (p : Position) : Prop :=
  match edge with
  | Edge.top =>
      p.y = side.position.y ∧
      side.position.x + side.effWidth * 0.1 ≤ p.x ∧
      p.x ≤ side.position.x + side.effWidth * 0.9
  | Edge.bottom =>
      p.y = side.position.y + side.effHeight ∧
      side.position.x + side.effWidth * 0.1 ≤ p.x ∧
      p.x ≤ side.position.x + side.effWidth * 0.9
  | Edge.left =>
      p.x = side.position.x ∧
      side.position.y + side.effHeight * 0.1 ≤ p.y ∧
      p.y ≤ side.position.y + side.effHeight * 0.9
  | Edge.right =>
      p.x = side.position.x + side.effWidth ∧
      side.position.y + side.effHeight * 0.1 ≤ p.y ∧
      p.y ≤ side.position.y + side.effHeight * 0.9

/-- Primary sort key difference of the allocator comparator: difference of
the other-endpoint centers along the edge direction (x for top/bottom
edges, y for left/right edges), second minus first. -/
noncomputable def sortPrimDiff (edge : Edge) (aC bC : Position) : ℝ :=
  if edge = Edge.top ∨ edge = Edge.bottom then bC.x - aC.x else bC.y - aC.y

/-- Tie-break key of the allocator comparator: absolute value of the
other-endpoint center's perpendicular coordinate (|y| for top/bottom
edges, |x| for left/right edges). -/
noncomputable def sortTieKey (edge : Edge) (c : Position) : ℝ :=
  if edge = Edge.top ∨ edge = Edge.bottom then |c.y| else |c.x|

/-- Concrete scene for the collision claims: nodes `A` and `B` far apart,
and node `C` placed directly on the straight-line route between them. -/
noncomputable def nodeA : FlashcardSide := ⟨"A", ⟨0, 0⟩, some 100, some 60⟩

/-- Second node of the collision scene. -/
noncomputable def nodeB : FlashcardSide := ⟨"B", ⟨1000, 0⟩, some 100, some 60⟩

/-- Obstacle node of the collision scene, centered on the route. -/
noncomputable def nodeC : FlashcardSide := ⟨"C", ⟨500, 0⟩, some 100, some 60⟩

/-- The connector of the collision scene, from `A` to `B`. -/
def arrowAB : Arrow := ⟨"ab", "A", "B"⟩

/-- Node set of the collision scene. -/
noncomputable def sceneSides : List FlashcardSide := [nodeA, nodeB, nodeC]

/-- Concrete scene for the allocator tie-break claims: node `N` carries
two connectors on its top edge, one outbound (`arrowOut`, to `P`) and one
inbound (`arrowIn`, from `Q`); `P` and `Q` tie within the 5px tolerance
on x but differ in `|y|`. -/
noncomputable def nodeN : FlashcardSide := ⟨"N", ⟨0, 0⟩, some 100, some 60⟩

/-- Other endpoint of the outbound connector. -/
noncomputable def nodeP : FlashcardSide := ⟨"P", ⟨0, -200⟩, some 100, some 60⟩

/-- Other endpoint of the inbound connector. -/
noncomputable def nodeQ : FlashcardSide := ⟨"Q", ⟨3, -300⟩, some 100, some 60⟩

/-- Outbound connector of the tie scene: `N` is its source. -/
def arrowOut : Arrow := ⟨"out", "N", "P"⟩

/-- Inbound connector of the tie scene: `N` is its destination. -/
def arrowIn : Arrow := ⟨"in", "Q", "N"⟩

/-- Node set of the tie scene. -/
noncomputable def tieSides : List FlashcardSide := [nodeN, nodeP, nodeQ]

/-- Connector set of the tie scene. -/
def tieArrows : List Arrow := [arrowOut, arrowIn]

section PathBuilderLemmas

lemma segmentLength_horiz (p : Position) (t : ℝ) :
    segmentLength p { x := p.x + t, y := p.y } = |t| := by
  unfold segmentLength
  simp only [add_sub_cancel_left, sub_self, mul_zero, add_zero]
  rw [Real.sqrt_mul_self_eq_abs]

lemma segmentLength_vert (p : Position) (t : ℝ) :
    segmentLength p { x := p.x, y := p.y + t } = |t| := by
  unfold segmentLength
  simp only [add_sub_cancel_left, sub_self, mul_zero, zero_mul, zero_add]
  rw [Real.sqrt_mul_self_eq_abs]

lemma minTravel_nonneg (d : ℝ) : (0:ℝ) ≤ max (d * 0.2) 40 :=
  le_trans (by norm_num) (le_max_right _ _)

lemma firstSegmentLength_path (sp dp : Position) (se de : Edge) (ss ds : FlashcardSide) :
    firstSegmentLength (CanvasUtils.calculateArrowPathWithTravel sp dp se de ss ds)
      = max (segmentLength sp dp * 0.2) 40 := by
  have hm := minTravel_nonneg (segmentLength sp dp)
  have hsd : Real.sqrt ((dp.x - sp.x) * (dp.x - sp.x) + (dp.y - sp.y) * (dp.y - sp.y))
      = segmentLength sp dp := rfl
  simp only [CanvasUtils.calculateArrowPathWithTravel]
  rw [hsd]
  split_ifs with h1 h2 h3 <;> simp only [firstSegmentLength]
  · rw [segmentLength_horiz]; exact abs_of_nonneg hm
  · rw [segmentLength_horiz, abs_neg]; exact abs_of_nonneg hm
  · rw [segmentLength_vert]; exact abs_of_nonneg hm
  · rw [segmentLength_vert, abs_neg]; exact abs_of_nonneg hm

end PathBuilderLemmas

/-- C3: for every source point, destination point and pair of edges, the
first segment of the Path Builder's output has length at least
`max(0.2 * d, 40)` where `d` is the straight-line distance between the two
connection points (it is in fact exactly that value). -/
theorem first_segment_min_travel (sp dp : Position) (se de : Edge)
    (ss ds : FlashcardSide) :
    max (segmentLength sp dp * 0.2) 40 ≤
      firstSegmentLength (CanvasUtils.calculateArrowPathWithTravel sp dp se de ss ds) :=
  le_of_eq (firstSegmentLength_path sp dp se de ss ds).symm

/-- C8: the Path Builder always returns exactly the four points
`[source, corner1, corner2, destination]`, the three consecutive segments
are each horizontal or vertical, and the first segment is horizontal
exactly when the source edge is left or right, vertical otherwise. -/
theorem path_builder_orthogonal_shape (sp dp : Position) (se de : Edge)
    (ss ds : FlashcardSide) :
    ∃ c1 c2 : Position,
      CanvasUtils.calculateArrowPathWithTravel sp dp se de ss ds = [sp, c1, c2, dp] ∧
      (horizSeg sp c1 ∨ vertSeg sp c1) ∧ (horizSeg c1 c2 ∨ vertSeg c1 c2) ∧
      (horizSeg c2 dp ∨ vertSeg c2 dp) ∧
      (if se = Edge.left ∨ se = Edge.right then horizSeg sp c1 else vertSeg sp c1) := by
  simp only [CanvasUtils.calculateArrowPathWithTravel]
  split_ifs with h1 h2 h3
  · refine ⟨_, _, rfl, ?_, ?_, ?_, ?_⟩
    · exact Or.inl rfl
    · exact Or.inr rfl
    · exact Or.inl rfl
    · exact rfl
  · refine ⟨_, _, rfl, ?_, ?_, ?_, ?_⟩
    · exact Or.inl rfl
    · exact Or.inr rfl
    · exact Or.inl rfl
    · exact rfl
  · refine ⟨_, _, rfl, ?_, ?_, ?_, ?_⟩
    · exact Or.inr rfl
    · exact Or.inl rfl
    · exact Or.inr rfl
    · exact rfl
  · refine ⟨_, _, rfl, ?_, ?_, ?_, ?_⟩
    · exact Or.inr rfl
    · exact Or.inl rfl
    · exact Or.inr rfl
    · exact rfl

/-- C9: for two identical connection points the Path Builder still returns
a (finite, four-point) path whose first leg has exactly the minimum-travel
floor length of 40 units; no division by the zero distance occurs. -/
theorem degenerate_zero_distance_floor (p : Position) (se de : Edge)
    (ss ds : FlashcardSide) :
    firstSegmentLength (CanvasUtils.calculateArrowPathWithTravel p p se de ss ds) = 40 ∧
    (CanvasUtils.calculateArrowPathWithTravel p p se de ss ds).length = 4 := by
  constructor
  · rw [firstSegmentLength_path]
    have h0 : segmentLength p p = 0 := by
      unfold segmentLength
      simp only [sub_self, mul_zero, add_zero]
      exact Real.sqrt_zero
    rw [h0]
    norm_num
  · simp only [CanvasUtils.calculateArrowPathWithTravel]
    split_ifs <;> rfl

section EdgeSelectorLemmas

lemma pickClosest_right_slot (d : Option ℝ) :
    CanvasUtils.pickClosest [(d, Edge.right), (none, Edge.left),
      (none, Edge.bottom), (none, Edge.top)] = Edge.right := by
  cases d <;> simp [CanvasUtils.pickClosest, CanvasUtils.ltInf]

lemma pickClosest_only_left (d : ℝ) :
    CanvasUtils.pickClosest [(none, Edge.right), (some d, Edge.left),
      (none, Edge.bottom), (none, Edge.top)] = Edge.left := by
  simp [CanvasUtils.pickClosest, CanvasUtils.ltInf]

lemma pickClosest_only_bottom (d : ℝ) :
    CanvasUtils.pickClosest [(none, Edge.right), (none, Edge.left),
      (some d, Edge.bottom), (none, Edge.top)] = Edge.bottom := by
  simp [CanvasUtils.pickClosest, CanvasUtils.ltInf]

lemma pickClosest_only_top (d : ℝ) :
    CanvasUtils.pickClosest [(none, Edge.right), (none, Edge.left),
      (none, Edge.bottom), (some d, Edge.top)] = Edge.top := by
  simp [CanvasUtils.pickClosest, CanvasUtils.ltInf]

end EdgeSelectorLemmas

/-- C10: the Edge Selector is total over the four-edge result type, and
when the two centers coincide (no candidate edge intersection qualifies)
it falls back to the default edge `right`. -/
theorem edge_selector_total_default_right (A B : FlashcardSide) :
    (CanvasUtils.determineEdgeFromVector A B = Edge.top ∨
     CanvasUtils.determineEdgeFromVector A B = Edge.bottom ∨
     CanvasUtils.determineEdgeFromVector A B = Edge.left ∨
     CanvasUtils.determineEdgeFromVector A B = Edge.right) ∧
    (CanvasUtils.getSideCenter A = CanvasUtils.getSideCenter B →
      CanvasUtils.determineEdgeFromVector A B = Edge.right) := by
  constructor
  · cases CanvasUtils.determineEdgeFromVector A B <;> simp
  · intro h
    simp only [CanvasUtils.determineEdgeFromVector]
    rw [h]
    simp only [sub_self, lt_self_iff_false, if_false]
    exact pickClosest_right_slot none

/-- Witness for C10 at a concrete pair of coinciding nodes. -/
theorem edge_selector_total_default_right_witness :
    CanvasUtils.determineEdgeFromVector
        ⟨"A", ⟨0, 0⟩, some 100, some 60⟩ ⟨"B", ⟨0, 0⟩, some 100, some 60⟩
      = Edge.right :=
  (edge_selector_total_default_right _ _).2 rfl

/-- C7: for nodes `A`, `B` with `A` strictly left of `B` and vertically
aligned centers, the Edge Selector yields `right` for `(A, B)` and `left`
for `(B, A)`. -/
theorem edge_selection_symmetry (A B : FlashcardSide)
    (hx : (CanvasUtils.getSideCenter A).x < (CanvasUtils.getSideCenter B).x)
    (hy : (CanvasUtils.getSideCenter A).y = (CanvasUtils.getSideCenter B).y)
    (hhB : 0 ≤ B.effHeight) :
    CanvasUtils.determineEdgeFromVector A B = Edge.right ∧
    CanvasUtils.determineEdgeFromVector B A = Edge.left := by
  have hdx : 0 < (CanvasUtils.getSideCenter B).x - (CanvasUtils.getSideCenter A).x :=
    sub_pos.mpr hx
  constructor
  · simp only [CanvasUtils.determineEdgeFromVector]
    rw [hy]
    rw [if_pos hdx, if_neg (not_lt.mpr (le_of_lt hdx))]
    simp only [sub_self, lt_self_iff_false, if_false]
    exact pickClosest_right_slot _
  · have hdx' : (CanvasUtils.getSideCenter A).x - (CanvasUtils.getSideCenter B).x < 0 :=
      sub_neg.mpr hx
    simp only [CanvasUtils.determineEdgeFromVector]
    rw [hy]
    rw [if_neg (not_lt.mpr (le_of_lt hdx')), if_pos hdx']
    simp only [sub_self, lt_self_iff_false, if_false, zero_mul, add_zero]
    rw [if_pos ?_]
    · exact pickClosest_only_left _
    · constructor
      · simp only [CanvasUtils.getSideCenter]
        linarith
      · simp only [CanvasUtils.getSideCenter]
        linarith

/-- Witness for C7 at two concrete horizontally separated nodes. -/
theorem edge_selection_symmetry_witness :
    CanvasUtils.determineEdgeFromVector
        ⟨"A", ⟨0, 0⟩, some 100, some 60⟩ ⟨"B", ⟨500, 0⟩, some 100, some 60⟩
      = Edge.right ∧
    CanvasUtils.determineEdgeFromVector
        ⟨"B", ⟨500, 0⟩, some 100, some 60⟩ ⟨"A", ⟨0, 0⟩, some 100, some 60⟩
      = Edge.left := by
  refine edge_selection_symmetry _ _ ?_ ?_ ?_
  · norm_num [CanvasUtils.getSideCenter, FlashcardSide.effWidth]
  · norm_num [CanvasUtils.getSideCenter, FlashcardSide.effHeight]
  · norm_num [FlashcardSide.effHeight]

/-- C2: a connector whose `sourceId` or `destinationId` matches no node in
the node set yields the empty path from `calculateAdvancedArrowPath`
(the function is total, so no exception is possible). -/
theorem missing_node_returns_empty_path (arrow : Arrow) (allArrows : List Arrow)
    (sides : List FlashcardSide)
    (h : (∀ s ∈ sides, s.id ≠ arrow.sourceId) ∨ (∀ s ∈ sides, s.id ≠ arrow.destinationId)) :
    CanvasUtils.calculateAdvancedArrowPath arrow allArrows sides = [] := by
  unfold CanvasUtils.calculateAdvancedArrowPath
  rcases h with h | h
  · have hf : sides.find? (fun s => s.id == arrow.sourceId) = none := by
      rw [List.find?_eq_none]
      intro s hs
      simpa using h s hs
    rw [hf]
  · have hf : sides.find? (fun s => s.id == arrow.destinationId) = none := by
      rw [List.find?_eq_none]
      intro s hs
      simpa using h s hs
    rw [hf]
    cases sides.find? (fun s => s.id == arrow.sourceId) <;> rfl

/-- Witness for C2: a connector pointing at absent node ids in a nonempty
node set. -/
theorem missing_node_returns_empty_path_witness :
    CanvasUtils.calculateAdvancedArrowPath ⟨"a1", "X", "Y"⟩ []
      [⟨"A", ⟨0, 0⟩, some 100, some 60⟩] = [] :=
  missing_node_returns_empty_path _ _ _ (Or.inl (by simp))

section AllocatorLemmas

lemma jsInsert_perm {α : Type} (cmp : α → α → ℝ) (x : α) (l : List α) :
    (CanvasUtils.jsInsert cmp x l).Perm (x :: l) := by
  induction l with
  | nil => simp [CanvasUtils.jsInsert]
  | cons y ys ih =>
    simp only [CanvasUtils.jsInsert]
    split_ifs
    · exact (ih.cons y).trans (List.Perm.swap x y ys)
    · exact List.Perm.refl _

lemma jsSort_perm {α : Type} (cmp : α → α → ℝ) (l : List α) :
    (CanvasUtils.jsSort cmp l).Perm l := by
  induction l with
  | nil => simp [CanvasUtils.jsSort]
  | cons x xs ih =>
    simp only [CanvasUtils.jsSort]
    exact (jsInsert_perm cmp x _).trans (ih.cons x)

lemma sortedEdgeArrowsOf_perm (side : FlashcardSide) (edge : Edge)
    (allArrows : List Arrow) (sides : List FlashcardSide) :
    (CanvasUtils.sortedEdgeArrowsOf side edge allArrows sides).Perm
      (CanvasUtils.edgeArrowsOf side edge allArrows sides) :=
  jsSort_perm _ _

lemma adjusted_bounds {i n : ℝ} (h0 : 0 ≤ i) (h1 : i ≤ n - 1) (h2 : 2 ≤ n) :
    0.1 ≤ 0.1 + i / (n - 1) * 0.8 ∧ 0.1 + i / (n - 1) * 0.8 ≤ 0.9 := by
  have hn : 0 < n - 1 := by linarith
  constructor
  · have hnn : 0 ≤ i / (n - 1) := div_nonneg h0 hn.le
    linarith
  · have hle : i / (n - 1) ≤ 1 := (div_le_one hn).mpr (by linarith)
    linarith

lemma adjusted_inj {i j n : ℝ} (h2 : 2 ≤ n) (hij : i ≠ j) :
    0.1 + i / (n - 1) * 0.8 ≠ 0.1 + j / (n - 1) * 0.8 := by
  have hn : 0 < n - 1 := by linarith
  intro h
  have hdiv : i / (n - 1) = j / (n - 1) := by linarith
  have hmul : i * (n - 1) = j * (n - 1) := (div_eq_div_iff hn.ne' hn.ne').mp hdiv
  exact hij (mul_right_cancel₀ hn.ne' hmul)

lemma getArrowEdgePoint_mem_band (side : FlashcardSide) (edge : Edge) {i n : ℝ}
    (hw : 0 < side.effWidth) (hh : 0 < side.effHeight)
    (h0 : 0 ≤ i) (h1 : i ≤ n - 1) (h2 : 2 ≤ n) :
    onEdgeBand side edge (CanvasUtils.getArrowEdgePoint side edge i n) := by
  have h2' : (1:ℝ) < n := by linarith
  obtain ⟨hb1, hb2⟩ := adjusted_bounds h0 h1 h2
  simp only [CanvasUtils.getArrowEdgePoint, if_pos h2']
  cases edge <;> simp only [onEdgeBand] <;>
    refine ⟨by trivial, ?_, ?_⟩ <;>
    nlinarith [mul_le_mul_of_nonneg_left hb1 hw.le,
      mul_le_mul_of_nonneg_left hb2 hw.le,
      mul_le_mul_of_nonneg_left hb1 hh.le,
      mul_le_mul_of_nonneg_left hb2 hh.le]

lemma getArrowEdgePoint_inj (side : FlashcardSide) (edge : Edge) {i j n : ℝ}
    (hw : 0 < side.effWidth) (hh : 0 < side.effHeight) (h2 : 2 ≤ n) (hij : i ≠ j) :
    CanvasUtils.getArrowEdgePoint side edge i n ≠
      CanvasUtils.getArrowEdgePoint side edge j n := by
  have h2' : (1:ℝ) < n := by linarith
  have hadj := adjusted_inj h2 hij
  simp only [CanvasUtils.getArrowEdgePoint, if_pos h2']
  cases edge <;> intro hc
  · have hx := congrArg Position.x hc
    simp only at hx
    exact hadj (mul_left_cancel₀ (ne_of_gt hw) (by linarith))
  · have hx := congrArg Position.x hc
    simp only at hx
    exact hadj (by
      have := mul_left_cancel₀ (ne_of_gt hw) (c := 1 - (0.1 + j / (n - 1) * 0.8))
        (b := 1 - (0.1 + i / (n - 1) * 0.8)) (by linarith)
      linarith)
  · have hy := congrArg Position.y hc
    simp only at hy
    exact hadj (mul_left_cancel₀ (ne_of_gt hh) (by linarith))
  · have hy := congrArg Position.y hc
    simp only at hy
    exact hadj (by
      have := mul_left_cancel₀ (ne_of_gt hh) (c := 1 - (0.1 + j / (n - 1) * 0.8))
        (b := 1 - (0.1 + i / (n - 1) * 0.8)) (by linarith)
      linarith)

end AllocatorLemmas

/-- C6: for N ≥ 2 connectors incident to one edge of a node, the Allocator
assigns pairwise distinct connection points, each lying within the band
between 10% and 90% of that edge's length. -/
theorem allocator_spread_distinct_in_band (side : FlashcardSide) (edge : Edge)
    (allArrows : List Arrow) (sides : List FlashcardSide) (a b : Arrow)
    (ha : a ∈ CanvasUtils.edgeArrowsOf side edge allArrows sides)
    (hb : b ∈ CanvasUtils.edgeArrowsOf side edge allArrows sides)
    (hab : a.id ≠ b.id)
    (hN : 2 ≤ (CanvasUtils.edgeArrowsOf side edge allArrows sides).length)
    (hw : 0 < side.effWidth) (hh : 0 < side.effHeight) :
    CanvasUtils.getSideEdgeConnectionPoint side edge a allArrows sides ≠
      CanvasUtils.getSideEdgeConnectionPoint side edge b allArrows sides ∧
    onEdgeBand side edge (CanvasUtils.getSideEdgeConnectionPoint side edge a allArrows sides) := by
  set L := CanvasUtils.sortedEdgeArrowsOf side edge allArrows sides with hL
  have hperm := sortedEdgeArrowsOf_perm side edge allArrows sides
  have haL : a ∈ L := hperm.mem_iff.mpr ha
  have hbL : b ∈ L := hperm.mem_iff.mpr hb
  have hN2 : 2 ≤ L.length := by rw [hperm.length_eq]; exact hN
  have hia : L.findIdx (fun x => x.id == a.id) < L.length :=
    List.findIdx_lt_length_of_exists ⟨a, haL, by simp⟩
  have hib : L.findIdx (fun x => x.id == b.id) < L.length :=
    List.findIdx_lt_length_of_exists ⟨b, hbL, by simp⟩
  have haid : (L.get ⟨L.findIdx (fun x => x.id == a.id), hia⟩).id = a.id := by
    have h := @List.findIdx_get _ (fun x => x.id == a.id) L hia
    simpa using h
  have hbid : (L.get ⟨L.findIdx (fun x => x.id == b.id), hib⟩).id = b.id := by
    have h := @List.findIdx_get _ (fun x => x.id == b.id) L hib
    simpa using h
  have hne : L.findIdx (fun x => x.id == a.id) ≠ L.findIdx (fun x => x.id == b.id) := by
    intro h
    have hg : L.get ⟨L.findIdx (fun x => x.id == a.id), hia⟩
        = L.get ⟨L.findIdx (fun x => x.id == b.id), hib⟩ := by
      congr 1
      exact Fin.ext h
    exact hab (by rw [← haid, ← hbid, hg])
  have hja : CanvasUtils.jsFindIndex (fun x => x.id == a.id) L
      = (L.findIdx (fun x => x.id == a.id) : ℤ) := by
    unfold CanvasUtils.jsFindIndex
    rw [if_pos hia]
  have hjb : CanvasUtils.jsFindIndex (fun x => x.id == b.id) L
      = (L.findIdx (fun x => x.id == b.id) : ℤ) := by
    unfold CanvasUtils.jsFindIndex
    rw [if_pos hib]
  have hun : ∀ c : Arrow, CanvasUtils.getSideEdgeConnectionPoint side edge c allArrows sides
      = CanvasUtils.getArrowEdgePoint side edge
          ((CanvasUtils.jsFindIndex (fun x => x.id == c.id) L : ℤ) : ℝ) (L.length : ℝ) :=
    fun c => rfl
  have h0a : (0:ℝ) ≤ ((L.findIdx (fun x => x.id == a.id) : ℤ) : ℝ) := by positivity
  have h0b : (0:ℝ) ≤ ((L.findIdx (fun x => x.id == b.id) : ℤ) : ℝ) := by positivity
  have h1a : ((L.findIdx (fun x => x.id == a.id) : ℤ) : ℝ) ≤ (L.length : ℝ) - 1 := by
    have := Nat.succ_le_of_lt hia
    push_cast
    have h' : ((L.findIdx (fun x => x.id == a.id) : ℝ)) + 1 ≤ (L.length : ℝ) := by
      exact_mod_cast this
    linarith
  have h1b : ((L.findIdx (fun x => x.id == b.id) : ℤ) : ℝ) ≤ (L.length : ℝ) - 1 := by
    have := Nat.succ_le_of_lt hib
    push_cast
    have h' : ((L.findIdx (fun x => x.id == b.id) : ℝ)) + 1 ≤ (L.length : ℝ) := by
      exact_mod_cast this
    linarith
  have h2R : (2:ℝ) ≤ (L.length : ℝ) := by exact_mod_cast hN2
  have hneR : ((L.findIdx (fun x => x.id == a.id) : ℤ) : ℝ)
      ≠ ((L.findIdx (fun x => x.id == b.id) : ℤ) : ℝ) := by
    exact_mod_cast hne
  constructor
  · rw [hun a, hun b, hja, hjb]
    exact getArrowEdgePoint_inj side edge hw hh h2R hneR
  · rw [hun a, hja]
    exact getArrowEdgePoint_mem_band side edge hw hh h0a h1a h2R

section SceneEval

lemma nodeA_id : nodeA.id = "A" := rfl

lemma nodeB_id : nodeB.id = "B" := rfl

lemma nodeC_id : nodeC.id = "C" := rfl

lemma nodeA_pos : nodeA.position = ⟨0, 0⟩ := rfl

lemma nodeB_pos : nodeB.position = ⟨1000, 0⟩ := rfl

lemma nodeA_effW : nodeA.effWidth = 100 := by
  norm_num [nodeA, FlashcardSide.effWidth]

lemma nodeA_effH : nodeA.effHeight = 60 := by
  norm_num [nodeA, FlashcardSide.effHeight]

lemma nodeB_effW : nodeB.effWidth = 100 := by
  norm_num [nodeB, FlashcardSide.effWidth]

lemma nodeB_effH : nodeB.effHeight = 60 := by
  norm_num [nodeB, FlashcardSide.effHeight]

lemma nodeC_effW : nodeC.effWidth = 100 := by
  norm_num [nodeC, FlashcardSide.effWidth]

lemma nodeC_effH : nodeC.effHeight = 60 := by
  norm_num [nodeC, FlashcardSide.effHeight]

lemma arrowAB_id : arrowAB.id = "ab" := rfl

lemma detEFV_AB : CanvasUtils.determineEdgeFromVector nodeA nodeB = Edge.right := by
  norm_num [CanvasUtils.determineEdgeFromVector, CanvasUtils.getSideCenter,
    FlashcardSide.effWidth, FlashcardSide.effHeight, nodeA, nodeB,
    CanvasUtils.pickClosest, CanvasUtils.ltInf]

lemma detEFV_BA : CanvasUtils.determineEdgeFromVector nodeB nodeA = Edge.left := by
  norm_num [CanvasUtils.determineEdgeFromVector, CanvasUtils.getSideCenter,
    FlashcardSide.effWidth, FlashcardSide.effHeight, nodeA, nodeB,
    CanvasUtils.pickClosest, CanvasUtils.ltInf]

lemma findSceneA : sceneSides.find? (fun s => s.id == "A") = some nodeA := by
  simp [sceneSides, nodeA_id]

lemma findSceneB : sceneSides.find? (fun s => s.id == "B") = some nodeB := by
  simp [sceneSides, nodeA_id, nodeB_id]

lemma edgeArrows_A_right :
    CanvasUtils.edgeArrowsOf nodeA Edge.right [arrowAB] sceneSides = [arrowAB] := by
  simp [CanvasUtils.edgeArrowsOf, CanvasUtils.arrowOnEdge, arrowAB,
    findSceneA, findSceneB, detEFV_AB]

lemma edgeArrows_B_left :
    CanvasUtils.edgeArrowsOf nodeB Edge.left [arrowAB] sceneSides = [arrowAB] := by
  simp [CanvasUtils.edgeArrowsOf, CanvasUtils.arrowOnEdge, arrowAB,
    findSceneA, findSceneB, nodeA_id, nodeB_id, detEFV_BA]

lemma srcPt_AB :
    CanvasUtils.getSideEdgeConnectionPoint nodeA Edge.right arrowAB [arrowAB] sceneSides
      = ⟨100, 30⟩ := by
  have hsorted : CanvasUtils.sortedEdgeArrowsOf nodeA Edge.right [arrowAB] sceneSides
      = [arrowAB] := by
    simp [CanvasUtils.sortedEdgeArrowsOf, edgeArrows_A_right,
      CanvasUtils.jsSort, CanvasUtils.jsInsert]
  norm_num [CanvasUtils.getSideEdgeConnectionPoint, hsorted, CanvasUtils.jsFindIndex,
    List.findIdx, List.findIdx.go, arrowAB_id, CanvasUtils.getArrowEdgePoint,
    nodeA_pos, nodeA_effW, nodeA_effH, Position.mk.injEq]

lemma dstPt_AB :
    CanvasUtils.getSideEdgeConnectionPoint nodeB Edge.left arrowAB [arrowAB] sceneSides
      = ⟨1000, 30⟩ := by
  have hsorted : CanvasUtils.sortedEdgeArrowsOf nodeB Edge.left [arrowAB] sceneSides
      = [arrowAB] := by
    simp [CanvasUtils.sortedEdgeArrowsOf, edgeArrows_B_left,
      CanvasUtils.jsSort, CanvasUtils.jsInsert]
  norm_num [CanvasUtils.getSideEdgeConnectionPoint, hsorted, CanvasUtils.jsFindIndex,
    List.findIdx, List.findIdx.go, arrowAB_id, CanvasUtils.getArrowEdgePoint,
    nodeB_pos, nodeB_effW, nodeB_effH, Position.mk.injEq]

lemma sqrt810000 : Real.sqrt 810000 = 900 := by
  rw [show (810000 : ℝ) = 900 ^ 2 by norm_num, Real.sqrt_sq (by norm_num : (0:ℝ) ≤ 900)]

lemma scenePath_AB :
    CanvasUtils.calculateAdvancedArrowPath arrowAB [arrowAB] sceneSides
      = [⟨100, 30⟩, ⟨280, 30⟩, ⟨280, 30⟩, ⟨1000, 30⟩] := by
  have h : CanvasUtils.calculateAdvancedArrowPath arrowAB [arrowAB] sceneSides
      = CanvasUtils.calculateArrowPathWithTravel ⟨100, 30⟩ ⟨1000, 30⟩
          Edge.right Edge.left nodeA nodeB := by
    unfold CanvasUtils.calculateAdvancedArrowPath
    simp only [show (fun s => s.id == arrowAB.sourceId)
        = (fun s : FlashcardSide => s.id == "A") from rfl,
      show (fun s => s.id == arrowAB.destinationId)
        = (fun s : FlashcardSide => s.id == "B") from rfl,
      findSceneA, findSceneB, detEFV_AB, detEFV_BA, srcPt_AB, dstPt_AB]
  rw [h]
  norm_num [CanvasUtils.calculateArrowPathWithTravel, max_def, sqrt810000,
    Position.mk.injEq]

end SceneEval

/-- C1 (code bug witness): in a scene with nodes `A` and `B` far apart and
node `C` directly on the straight-line route between them, the path
returned by `calculateAdvancedArrowPath` for the connector from `A` to `B`
does intersect `C`'s rectangle: no collision resolution takes place. -/
theorem unresolved_path_intersects_obstacle :
    CanvasUtils.calculateAdvancedArrowPath arrowAB [arrowAB] sceneSides
      = [⟨100, 30⟩, ⟨280, 30⟩, ⟨280, 30⟩, ⟨1000, 30⟩] ∧
    segmentMeetsSide ⟨280, 30⟩ ⟨1000, 30⟩ nodeC := by
  refine ⟨scenePath_AB, ⟨1/3, by norm_num, by norm_num, ?_⟩⟩
  norm_num [CanvasUtils.isPointInSide, lerp, nodeC, FlashcardSide.effWidth,
    FlashcardSide.effHeight]

lemma sqrt32400 : Real.sqrt 32400 = 180 := by
  rw [show (32400 : ℝ) = 180 ^ 2 by norm_num, Real.sqrt_sq (by norm_num : (0:ℝ) ≤ 180)]

lemma sqrt518400 : Real.sqrt 518400 = 720 := by
  rw [show (518400 : ℝ) = 720 ^ 2 by norm_num, Real.sqrt_sq (by norm_num : (0:ℝ) ≤ 720)]

/-- C4 (code bug witness): `drawArrow` places the label at the vertex
`path[Math.floor(path.length / 2)]` of the computed path; in the collision
scene that vertex sits at arc-length fraction 1/5 = 0.2 of the path,
outside the required range [0.30, 0.70]. -/
theorem label_fraction_out_of_range :
    drawArrowLabelPosition (CanvasUtils.calculateAdvancedArrowPath arrowAB [arrowAB] sceneSides)
      = some ⟨280, 30⟩ ∧
    arcFractionAt (CanvasUtils.calculateAdvancedArrowPath arrowAB [arrowAB] sceneSides) 2
      = 1/5 ∧
    ¬(3/10 ≤ arcFractionAt
        (CanvasUtils.calculateAdvancedArrowPath arrowAB [arrowAB] sceneSides) 2) := by
  rw [scenePath_AB]
  norm_num [drawArrowLabelPosition, arcFractionAt, lengthUpTo, pathLength,
    segmentLength, sqrt32400, sqrt518400]

section TieSceneEval

lemma nodeN_id : nodeN.id = "N" := rfl

lemma nodeP_id : nodeP.id = "P" := rfl

lemma nodeQ_id : nodeQ.id = "Q" := rfl

lemma arrowOut_id : arrowOut.id = "out" := rfl

lemma arrowIn_id : arrowIn.id = "in" := rfl

lemma nodeN_pos : nodeN.position = ⟨0, 0⟩ := rfl

lemma nodeN_effW : nodeN.effWidth = 100 := by
  norm_num [nodeN, FlashcardSide.effWidth]

lemma nodeN_effH : nodeN.effHeight = 60 := by
  norm_num [nodeN, FlashcardSide.effHeight]

lemma centerP : CanvasUtils.getSideCenter nodeP = ⟨50, -170⟩ := by
  norm_num [CanvasUtils.getSideCenter, nodeP, FlashcardSide.effWidth,
    FlashcardSide.effHeight, Position.mk.injEq]

lemma centerQ : CanvasUtils.getSideCenter nodeQ = ⟨53, -270⟩ := by
  norm_num [CanvasUtils.getSideCenter, nodeQ, FlashcardSide.effWidth,
    FlashcardSide.effHeight, Position.mk.injEq]

lemma detEFV_NP : CanvasUtils.determineEdgeFromVector nodeN nodeP = Edge.top := by
  norm_num [CanvasUtils.determineEdgeFromVector, CanvasUtils.getSideCenter,
    FlashcardSide.effWidth, FlashcardSide.effHeight, nodeN, nodeP,
    CanvasUtils.pickClosest, CanvasUtils.ltInf]

lemma detEFV_NQ : CanvasUtils.determineEdgeFromVector nodeN nodeQ = Edge.top := by
  norm_num [CanvasUtils.determineEdgeFromVector, CanvasUtils.getSideCenter,
    FlashcardSide.effWidth, FlashcardSide.effHeight, nodeN, nodeQ,
    CanvasUtils.pickClosest, CanvasUtils.ltInf]

lemma findTieN : tieSides.find? (fun s => s.id == "N") = some nodeN := by
  simp [tieSides, nodeN_id]

lemma findTieP : tieSides.find? (fun s => s.id == "P") = some nodeP := by
  simp [tieSides, nodeN_id, nodeP_id]

lemma findTieQ : tieSides.find? (fun s => s.id == "Q") = some nodeQ := by
  simp [tieSides, nodeN_id, nodeP_id, nodeQ_id]

lemma edgeArrows_tie :
    CanvasUtils.edgeArrowsOf nodeN Edge.top tieArrows tieSides
      = [arrowOut, arrowIn] := by
  simp [CanvasUtils.edgeArrowsOf, CanvasUtils.arrowOnEdge, tieArrows,
    arrowOut, arrowIn, findTieN, findTieP, findTieQ,
    nodeN_id, nodeP_id, nodeQ_id, detEFV_NP, detEFV_NQ]

lemma otherSide_out : CanvasUtils.otherSideOf nodeN tieSides arrowOut = some nodeP := by
  simp [CanvasUtils.otherSideOf, arrowOut, nodeN_id, findTieP]

lemma otherSide_in : CanvasUtils.otherSideOf nodeN tieSides arrowIn = some nodeQ := by
  simp [CanvasUtils.otherSideOf, arrowIn, nodeN_id, findTieQ]

end TieSceneEval

section TieBreak

lemma sortPrimDiff_comm (edge : Edge) (p q : Position) :
    sortPrimDiff edge q p = -(sortPrimDiff edge p q) := by
  unfold sortPrimDiff
  split_ifs <;> ring

lemma compareOnEdge_tie_eval (side : FlashcardSide) (edge : Edge)
    (sides : List FlashcardSide) {x y : Arrow} {xO yO : FlashcardSide}
    (hx : CanvasUtils.otherSideOf side sides x = some xO)
    (hy : CanvasUtils.otherSideOf side sides y = some yO)
    (htie : |sortPrimDiff edge (CanvasUtils.getSideCenter xO)
        (CanvasUtils.getSideCenter yO)| ≤ 5) :
    CanvasUtils.compareOnEdge side edge sides x y
      = sortTieKey edge (CanvasUtils.getSideCenter xO)
        - sortTieKey edge (CanvasUtils.getSideCenter yO) := by
  unfold CanvasUtils.compareOnEdge
  simp only [hx, hy]
  by_cases hedge : edge = Edge.top ∨ edge = Edge.bottom
  · rw [if_pos hedge, if_neg]
    · simp only [sortTieKey, if_pos hedge]
    · rw [not_lt]
      simpa only [sortPrimDiff, if_pos hedge] using htie
  · rw [if_neg hedge, if_neg]
    · simp only [sortTieKey, if_neg hedge]
    · rw [not_lt]
      simpa only [sortPrimDiff, if_neg hedge] using htie

lemma cmp_out_in :
    CanvasUtils.compareOnEdge nodeN Edge.top tieSides arrowOut arrowIn = -100 := by
  have h := compareOnEdge_tie_eval nodeN Edge.top tieSides otherSide_out otherSide_in
    (by rw [centerP, centerQ]; norm_num [sortPrimDiff])
  rw [h, centerP, centerQ]
  norm_num [sortTieKey]

lemma sortedTie :
    CanvasUtils.sortedEdgeArrowsOf nodeN Edge.top tieArrows tieSides
      = [arrowOut, arrowIn] := by
  unfold CanvasUtils.sortedEdgeArrowsOf
  rw [edgeArrows_tie]
  simp only [CanvasUtils.jsSort, CanvasUtils.jsInsert]
  rw [if_neg (by rw [cmp_out_in]; norm_num)]

end TieBreak

/-- C5 counterexample: in the tie scene the two connectors' other
endpoints tie within the 5px tolerance, yet the Allocator orders the
connector with `nodeN` as *source* (`arrowOut`) before the one with
`nodeN` as *destination* (`arrowIn`) — the opposite of the claimed
dest-before-source tie-break. -/
theorem tie_break_dest_first_refuted :
    CanvasUtils.sortedEdgeArrowsOf nodeN Edge.top tieArrows tieSides
      = [arrowOut, arrowIn] ∧
    arrowOut.sourceId = nodeN.id ∧
    arrowIn.destinationId = nodeN.id ∧
    CanvasUtils.otherSideOf nodeN tieSides arrowOut = some nodeP ∧
    CanvasUtils.otherSideOf nodeN tieSides arrowIn = some nodeQ ∧
    |(CanvasUtils.getSideCenter nodeQ).x - (CanvasUtils.getSideCenter nodeP).x| ≤ 5 := by
  refine ⟨sortedTie, rfl, rfl, otherSide_out, otherSide_in, ?_⟩
  rw [centerP, centerQ]
  norm_num

/-- C5 amended: whenever two connectors on one edge tie within the 5px
tolerance, the Allocator orders them by the absolute value of the other
endpoint's perpendicular center coordinate (|y| for top/bottom edges, |x|
for left/right edges), not by direction; stated for an edge carrying
exactly those two connectors. -/
theorem tie_break_by_abs_perp_key (side : FlashcardSide) (edge : Edge)
    (allArrows : List Arrow) (sides : List FlashcardSide)
    (a b : Arrow) (aO bO : FlashcardSide)
    (hfil : CanvasUtils.edgeArrowsOf side edge allArrows sides = [a, b] ∨
      CanvasUtils.edgeArrowsOf side edge allArrows sides = [b, a])
    (haO : CanvasUtils.otherSideOf side sides a = some aO)
    (hbO : CanvasUtils.otherSideOf side sides b = some bO)
    (htie : |sortPrimDiff edge (CanvasUtils.getSideCenter aO)
        (CanvasUtils.getSideCenter bO)| ≤ 5)
    (hkey : sortTieKey edge (CanvasUtils.getSideCenter aO)
        < sortTieKey edge (CanvasUtils.getSideCenter bO)) :
    CanvasUtils.sortedEdgeArrowsOf side edge allArrows sides = [a, b] := by
  have hab := compareOnEdge_tie_eval side edge sides haO hbO htie
  have hba := compareOnEdge_tie_eval side edge sides hbO haO
    (by rw [sortPrimDiff_comm, abs_neg]; exact htie)
  unfold CanvasUtils.sortedEdgeArrowsOf
  rcases hfil with h | h <;> rw [h] <;>
    simp only [CanvasUtils.jsSort, CanvasUtils.jsInsert]
  · rw [if_neg (by rw [hab]; linarith)]
  · rw [if_pos (by rw [hba]; linarith)]

/-- Witness for the amended C5 at the concrete tie scene. -/
theorem tie_break_by_abs_perp_key_witness :
    CanvasUtils.sortedEdgeArrowsOf nodeN Edge.top tieArrows tieSides
      = [arrowOut, arrowIn] :=
  tie_break_by_abs_perp_key nodeN Edge.top tieArrows tieSides arrowOut arrowIn nodeP nodeQ
    (Or.inl edgeArrows_tie) otherSide_out otherSide_in
    (by rw [centerP, centerQ]; norm_num [sortPrimDiff])
    (by rw [centerP, centerQ]; norm_num [sortTieKey])

/-- Witness for C6 at the concrete tie scene: the two connectors on the
top edge of `nodeN` obtain distinct connection points inside the 10%-90%
band. -/
theorem allocator_spread_distinct_in_band_witness :
    (CanvasUtils.getSideEdgeConnectionPoint nodeN Edge.top arrowOut tieArrows tieSides ≠
      CanvasUtils.getSideEdgeConnectionPoint nodeN Edge.top arrowIn tieArrows tieSides) ∧
    onEdgeBand nodeN Edge.top
      (CanvasUtils.getSideEdgeConnectionPoint nodeN Edge.top arrowOut tieArrows tieSides) :=
  allocator_spread_distinct_in_band nodeN Edge.top tieArrows tieSides arrowOut arrowIn
    (by rw [edgeArrows_tie]; simp)
    (by rw [edgeArrows_tie]; simp)
    (by decide)
    (by rw [edgeArrows_tie]; simp)
    (by rw [nodeN_effW]; norm_num)
    (by rw [nodeN_effH]; norm_num)
